import Mathlib

/-!
Verification of the hat-juggler protocol implementation
(`src_py/hat/juggler/transport.py`, `server.py`, `client.py`).

Python strings are modelled as `List Char`; the segmentation logic of
`Transport._send_loop` slices the JSON-encoded message string, so lengths
count characters exactly as the source's `len` does.  JSON encoding,
decoding, diff and patch live in the external `hat.json` library (out of
scope for the repository); they are taken as parameters, constrained only
where a claim needs it (codec round-trip).
-/

namespace Juggler

/-- Strings of the Python source, modelled as lists of characters. -/
abbrev Str := List Char

/-! ### Transport send loop (`Transport._send_loop`, transport.py lines 110-136)

The source runs, per message, the do-while loop

```
pos = 0; more_follows = True
while more_follows:
    payload = msg_str[pos:pos + max_segment_size]
    pos += len(payload)
    more_follows = pos < len(msg_str)
    data_type = '1' if more_follows else '0'
    await self._ws.send_str(data_type + payload)
```

which for `max_segment_size = 0` and a non-empty string never terminates;
the embedding is fuel-indexed and returns `none` exactly on divergence. -/

def Transport.sendLoopFuel (k : Nat) : Nat → Str → Option (List (Char × Str))
  | 0, _ => none
  | fuel + 1, msgStr =>
    let payload := msgStr.take k
    let rest := msgStr.drop k
    if rest.isEmpty then
      some [('0', payload)]
    else
      (Transport.sendLoopFuel k fuel rest).map (fun segs => ('1', payload) :: segs)

/-- Segments produced by `Transport._send_loop` for one message string
(fuel `length + 1` suffices whenever `1 ≤ k`, proved below). -/
def Transport.sendLoop (msgStr : Str) (k : Nat) : Option (List (Char × Str)) :=
  Transport.sendLoopFuel k (msgStr.length + 1) msgStr

/-! ### Transport receive loop (`Transport._receive_loop`, transport.py lines 63-108) -/

/-- Inbound WebSocket events as seen by `Transport._receive_loop`:
a closing event, a non-TEXT frame, or a TEXT frame with its data string. -/
inductive WsMsg
  | closing
  | nonText
  | text (data : Str)

/-- Outcome of running the receive loop: messages handed to the message
callback (in order), pong payloads sent back for `2` frames, the error that
terminated the loop (`none` when the peer closed or input ended), and the
`closed` flag — the loop's `finally` block always closes the transport. -/
structure ReceiveResult (μ : Type) where
  delivered : List μ
  pongs : List Str
  err : Option String
  closed : Bool
  deriving DecidableEq

/-- Body of `Transport._receive_loop`: `buf` is the `data_queue` of pending
non-final payloads, `delivered`/`pongs` accumulate in reverse. `decode` is
`hat.json.decode` (`none` models a raised decode error) and `msgCb` the
message callback (`Except.error` models a raised exception). -/
def Transport.receiveLoopAux {μ : Type} (decode : Str → Option μ)
    (msgCb : μ → Except String Unit) :
    List WsMsg → List Str → List μ → List Str → ReceiveResult μ
  | [], _, delivered, pongs => ⟨delivered.reverse, pongs.reverse, none, true⟩
  | WsMsg.closing :: _, _, delivered, pongs =>
      ⟨delivered.reverse, pongs.reverse, none, true⟩
  | WsMsg.nonText :: _, _, delivered, pongs =>
      ⟨delivered.reverse, pongs.reverse, some "unsupported ws message type", true⟩
  | WsMsg.text [] :: _, _, delivered, pongs =>
      ⟨delivered.reverse, pongs.reverse, some "string index out of range", true⟩
  | WsMsg.text (dataType :: payload) :: rest, buf, delivered, pongs =>
      if dataType = '0' then
        match decode ((buf ++ [payload]).flatten) with
        | none => ⟨delivered.reverse, pongs.reverse, some "json decode error", true⟩
        | some m =>
          match msgCb m with
          | Except.error e => ⟨(m :: delivered).reverse, pongs.reverse, some e, true⟩
          | Except.ok _ => Transport.receiveLoopAux decode msgCb rest [] (m :: delivered) pongs
      else if dataType = '1' then
        Transport.receiveLoopAux decode msgCb rest (buf ++ [payload]) delivered pongs
      else if dataType = '2' then
        Transport.receiveLoopAux decode msgCb rest buf delivered (payload :: pongs)
      else if dataType = '3' then
        Transport.receiveLoopAux decode msgCb rest buf delivered pongs
      else
        ⟨delivered.reverse, pongs.reverse, some "invalid message type", true⟩

/-- Receive loop started with an empty reassembly buffer. -/
def Transport.receiveLoop {μ : Type} (decode : Str → Option μ)
    (msgCb : μ → Except String Unit) (frames : List WsMsg) : ReceiveResult μ :=
  Transport.receiveLoopAux decode msgCb frames [] [] []

/-- Wire frame for one segment: the tag character prepended to the payload,
as in `send_str(data_type + payload)`. -/
def segFrame (seg : Char × Str) : WsMsg :=
  WsMsg.text (seg.1 :: seg.2)

/-- Message callback that never raises (used to observe delivered messages). -/
def msgCbOk {μ : Type} : μ → Except String Unit := fun _ => Except.ok ()

/-! ### Session data model -/

/-- JSON values (`hat.json.Data`); numbers are modelled as integers, which
is enough for every claim under verification. -/
inductive JsonData
  | null
  | bool (b : Bool)
  | num (n : Int)
  | str (s : String)
  | arr (items : List JsonData)
  | obj (fields : List (String × JsonData))

/-- Decoded juggler messages, discriminated by their `type` field; `other`
stands for any object whose `type` is none of the four known values. -/
inductive Msg
  | request (id : Nat) (name : String) (data : JsonData)
  | response (id : Nat) (success : Bool) (data : JsonData)
  | notify (name : String) (data : JsonData)
  | state (diff : JsonData)
  | other (type : String)

/-- Predicate for the `msg['type'] != 'request'` test in `Connection._on_msg`. -/
def Msg.isRequest : Msg → Bool
  | Msg.request _ _ _ => true
  | _ => false

/-- Error raised as `ConnectionError` (`Disconnected` in the spec). -/
inductive ConnectionFailure
  | disconnected
  deriving DecidableEq

/-! ### Server request processing (`Connection._process_request`, server.py lines 314-343) -/

/-- Response message fields assembled by `Connection._process_request`. -/
structure Response where
  id : Nat
  success : Bool
  data : JsonData

/-- Request callback: `request_cb(conn, name, data)`; `Except.error e` models a
raised exception whose `str(e)` is `e`; `none` models `request_cb is None`. -/
abbrev RequestCb := Option (String → JsonData → Except String JsonData)

/-- Body of the `try` block guarded by `if req['name']`: raises
"request handler not implemented" when no callback is registered, otherwise
calls the callback. -/
def Connection.callRequestCb (requestCb : RequestCb) (name : String)
    (data : JsonData) : Except String JsonData :=
  match requestCb with
  | none => Except.error "request handler not implemented"
  | some cb => cb name data

/-- Response built by `Connection._process_request` for an inbound request
(the source then enqueues it on the transport). -/
def Connection.processRequest (requestCb : RequestCb) (id : Nat) (name : String)
    (data : JsonData) : Response :=
  if name ≠ "" then
    match Connection.callRequestCb requestCb name data with
    | Except.ok v => ⟨id, true, v⟩
    | Except.error e => ⟨id, false, JsonData.str e⟩
  else
    ⟨id, true, data⟩

/-- Server-side `Connection._on_msg`: any message whose type is not
`request` raises "invalid message type"; a request is processed into a
response. -/
def Connection.onMsg (requestCb : RequestCb) (msg : Msg) : Except String Response :=
  match msg with
  | Msg.request id name data => Except.ok (Connection.processRequest requestCb id name data)
  | _ => Except.error "invalid message type"

/-- Message callback installed by the server connection, as passed to the
transport receive loop (response forwarding elided). -/
def Connection.msgCb (requestCb : RequestCb) (msg : Msg) : Except String Unit :=
  (Connection.onMsg requestCb msg).map (fun _ => ())

/-! ### Client session (`client.py`)

The correlation table `Client._res_futures` is an association list from
request id to the state of the pending result future. -/

/-- State of one result future in `Client._res_futures`. -/
inductive FutureState
  | pending
  | resolved (data : JsonData)
  | failedJuggler (data : JsonData)
  | failedDisconnected

/-- Future `done()` test. -/
def FutureState.done : FutureState → Bool
  | FutureState.pending => false
  | _ => true

/-- Lookup in the correlation table (`dict.get`). -/
def tableGet (t : List (Nat × FutureState)) (id : Nat) : Option FutureState :=
  match t with
  | [] => none
  | (i, f) :: rest => if i = id then some f else tableGet rest id

/-- Update of an existing id in the correlation table (future resolution). -/
def tableSet (t : List (Nat × FutureState)) (id : Nat) (f : FutureState) :
    List (Nat × FutureState) :=
  match t with
  | [] => []
  | (i, g) :: rest => if i = id then (i, f) :: rest else (i, g) :: tableSet rest id f

/-- Removal of an id from the correlation table (`dict.pop`). -/
def tableRemove (t : List (Nat × FutureState)) (id : Nat) : List (Nat × FutureState) :=
  match t with
  | [] => []
  | (i, g) :: rest => if i = id then rest else (i, g) :: tableRemove rest id

/-- Client session state: open flag, the `itertools.count(1)` counter value
(`nextReqId` is the id the next `send` will draw), the correlation table,
and the mirrored server state document. -/
structure ClientState where
  isOpen : Bool
  nextReqId : Nat
  resFutures : List (Nat × FutureState)
  stateData : JsonData

/-- Client state right after `connect`: counter at 1, empty table. -/
def Client.connectState : ClientState :=
  ⟨true, 1, [], JsonData.null⟩

/-- First half of `Client.send` (client.py lines 104-130): check the open
flag, draw a fresh id, register the placeholder, and return the request
message to be enqueued on the transport — the placeholder is already in the
returned state when the message is handed over for enqueueing. -/
def Client.sendStart (st : ClientState) (name : String) (data : JsonData) :
    Except ConnectionFailure (ClientState × Nat × Msg) :=
  if st.isOpen = false then
    Except.error ConnectionFailure.disconnected
  else
    Except.ok ({ st with
                  nextReqId := st.nextReqId + 1,
                  resFutures := st.resFutures ++ [(st.nextReqId, FutureState.pending)] },
               st.nextReqId,
               Msg.request st.nextReqId name data)

/-- The `finally` clause of `Client.send`: the id is popped from the table
after the result was delivered or the send failed. -/
def Client.sendFinish (st : ClientState) (reqId : Nat) : ClientState :=
  { st with resFutures := tableRemove st.resFutures reqId }

/-- Client `_on_close` (client.py lines 136-142): every not-yet-done result
future is failed with `ConnectionError`. -/
def Client.onClose (st : ClientState) : ClientState :=
  { st with resFutures := st.resFutures.map (fun e =>
      if e.2.done then e else (e.1, FutureState.failedDisconnected)) }

/-- Client `_on_msg` (client.py lines 144-168). `patch` is `hat.json.patch`;
`notifyCb` is the user notify callback (`Except.error` models a raised
exception). -/
def Client.onMsg (patch : JsonData → JsonData → JsonData)
    (notifyCb : Option (String → JsonData → Except String Unit))
    (st : ClientState) (msg : Msg) : Except String ClientState :=
  match msg with
  | Msg.response id success data =>
      match tableGet st.resFutures id with
      | none => Except.ok st
      | some f =>
          if f.done then Except.ok st
          else if success then
            Except.ok { st with resFutures := tableSet st.resFutures id (FutureState.resolved data) }
          else
            Except.ok { st with resFutures := tableSet st.resFutures id (FutureState.failedJuggler data) }
  | Msg.state diff =>
      Except.ok { st with stateData := patch st.stateData diff }
  | Msg.notify name data =>
      match notifyCb with
      | none => Except.ok st
      | some cb => (cb name data).map (fun _ => st)
  | _ => Except.error "invalid message type"

/-! ### Closed-connection operations (claim C9) -/

/-- The transport `send` (transport.py lines 55-61): putting on a closed send
queue raises `QueueClosedError`, re-raised as `ConnectionError`. -/
def Transport.send (sendQueueClosed : Bool) (msg : Msg) :
    Except ConnectionFailure Msg :=
  if sendQueueClosed then Except.error ConnectionFailure.disconnected
  else Except.ok msg

/-- Server `Connection.notify` (server.py lines 288-302): raises
`ConnectionError` when the connection is no longer open, otherwise enqueues
a notify message on the transport. -/
def Connection.notify (isOpen : Bool) (sendQueueClosed : Bool) (name : String)
    (data : JsonData) : Except ConnectionFailure Msg :=
  if isOpen = false then Except.error ConnectionFailure.disconnected
  else Transport.send sendQueueClosed (Msg.notify name data)

/-- Server `Connection.flush` enqueue step (server.py lines 273-286):
`put_nowait` on the closed flush queue raises `QueueClosedError`, re-raised
as `ConnectionError`; on an open queue the waiter future is enqueued. -/
def Connection.flush (flushQueueClosed : Bool) :
    Except ConnectionFailure FutureState :=
  if flushQueueClosed then Except.error ConnectionFailure.disconnected
  else Except.ok FutureState.pending

/-- Failing one still-pending waiter with `ConnectionError`
(`set_exception` is a no-op on a done future). -/
def failPending (f : FutureState) : FutureState :=
  match f with
  | FutureState.pending => FutureState.failedDisconnected
  | g => g

/-- The `finally` block of `Connection._sync_loop` (server.py lines 406-417):
after closing the flush queue, the loop fails the current flush waiter and
then drains the queue, failing every remaining waiter. Returns the final
states of all waiters touched, current one first. -/
def Connection.syncLoopFinale : Option FutureState → List FutureState → List FutureState
  | none, [] => []
  | some f, [] => [failPending f]
  | none, g :: rest => Connection.syncLoopFinale (some g) rest
  | some f, g :: rest => failPending f :: Connection.syncLoopFinale (some g) rest

/-! ### Sync loop iteration (`Connection._sync_loop`, server.py lines 345-401)

One pass of the `while True` body, after the `asyncio.wait` calls have
settled which futures completed: `flushArrived` says whether a flush waiter
was obtained from the flush queue this iteration (either branch of the
wait), and `pending` lists the queued state changes available to this
iteration — the head is the value held by the completed `get_data_future`,
the tail is what `data_queue` still holds.  `diff` is `hat.json.diff`,
`isEmptyDiff` the truthiness test on its result. -/

structure SyncInput (α : Type) where
  flushArrived : Bool
  pending : List α
  data : α
  synced : α
  deriving DecidableEq

structure SyncOutput (α δ : Type) where
  data : α
  synced : α
  leftover : List α
  sent : Option δ
  flushResolved : Bool
  deriving DecidableEq

/-- One iteration of the sync loop body.  When `pending` is non-empty the
completed `get_data_future` yields its head; when `autoflush_delay != 0` and
the queue is non-empty, `get_nowait_until_empty()` drains it to the last
value.  A diff is computed only when `synced_data is not data`, a `state`
message is sent only when the diff is non-empty, and at the end a flush
waiter obtained this iteration is resolved. -/
def Connection.syncIteration {α δ : Type} [DecidableEq α]
    (diff : α → α → δ) (isEmptyDiff : δ → Bool) (autoflushDelay : Option Rat)
    (inp : SyncInput α) : SyncOutput α δ :=
  let step1 :=
    match inp.pending with
    | [] => (inp.data, ([] : List α))
    | d :: ds => (d, ds)
  let step2 :=
    if autoflushDelay ≠ some 0 then
      if step1.2.isEmpty then step1
      else (step1.2.getLastD step1.1, ([] : List α))
    else step1
  let data := step2.1
  if data ≠ inp.synced then
    let d := diff inp.synced data
    { data := data
      synced := data
      leftover := step2.2
      sent := if isEmptyDiff d then none else some d
      flushResolved := inp.flushArrived }
  else
    { data := data
      synced := inp.synced
      leftover := step2.2
      sent := none
      flushResolved := inp.flushArrived }

/-- Concrete diff function on naturals used to instantiate the sync-loop
theorems: empty diff exactly when the values are equal. -/
def natDiff (a b : Nat) : List Nat := if a = b then [] else [b]

/-- Emptiness test for `natDiff` results (the truthiness test on a diff). -/
def natDiffIsEmpty (d : List Nat) : Bool := d.isEmpty

/-- Unary codec standing in for `hat.json` encode in concrete witnesses:
`n` is encoded as `n` repetitions of `a`. -/
def unaryEncode (n : Nat) : Str := List.replicate n 'a'

/-- Unary codec decoder: the length of the string. -/
def unaryDecode (s : Str) : Option Nat := some s.length

/-! ## Theorems -/

/-- Master property of the send-loop segmentation for `max_segment_size ≥ 1`:
fuel `length + 1` suffices, payloads concatenate back to the message string,
every payload is at most `k` long, segment counts match the message size,
and all tags are `1` except the final `0`. -/
lemma Transport.sendLoopFuel_spec (k : Nat) (hk : 1 ≤ k) :
    ∀ fuel msgStr, List.length msgStr < fuel →
    ∃ segs, Transport.sendLoopFuel k fuel msgStr = some segs ∧
      (segs.map Prod.snd).flatten = msgStr ∧
      (∀ seg ∈ segs, seg.2.length ≤ k) ∧
      (msgStr.length ≤ k → segs.length = 1) ∧
      (k < msgStr.length → 2 ≤ segs.length) ∧
      ∃ n, segs.map Prod.fst = List.replicate n '1' ++ ['0'] := by
  intro fuel
  induction fuel with
  | zero => intro s hs; omega
  | succ f ih =>
    intro s hs
    by_cases hrest : (s.drop k).isEmpty
    · have hdrop : s.drop k = [] := by simpa [List.isEmpty_iff] using hrest
      have hlen : s.length ≤ k := by
        have := List.drop_eq_nil_iff.mp hdrop
        omega
      have htake : s.take k = s := List.take_of_length_le hlen
      refine ⟨[('0', s.take k)], ?_, ?_, ?_, ?_, ?_, 0, ?_⟩
      · simp [Transport.sendLoopFuel, hrest]
      · simp [htake]
      · intro seg hseg
        simp at hseg
        subst hseg
        simp [htake, hlen]
      · intro _; rfl
      · intro h; omega
      · rfl
    · have hdrop : s.drop k ≠ [] := by
        intro h; exact hrest (by simp [h])
      have hklen : k < s.length := by
        by_contra h
        exact hdrop (List.drop_eq_nil_iff.mpr (by omega))
      have hlt : (s.drop k).length < f := by
        rw [List.length_drop]
        omega
      obtain ⟨segs, hsegs, hflat, hbound, hone, htwo, n, htags⟩ := ih (s.drop k) hlt
      refine ⟨('1', s.take k) :: segs, ?_, ?_, ?_, ?_, ?_, n + 1, ?_⟩
      · simp [Transport.sendLoopFuel, hrest, hsegs]
      · simp [hflat]
      · intro seg hseg
        rcases List.mem_cons.mp hseg with h | h
        · subst h; simp
        · exact hbound seg h
      · intro h; omega
      · intro _
        have : segs.length = (segs.map Prod.fst).length := by simp
        rw [htags] at this
        simp at this
        simp [this]
      · simp [htags, List.replicate_succ]

/-- Running the receive loop on the segments of one message (followed by
arbitrary further frames) reassembles exactly the original message string:
the `1`-tagged payloads are buffered and the `0`-tagged frame delivers the
concatenation of buffer and final payload to the decoder. -/
lemma Transport.receiveLoop_reassemble {μ : Type} (decode : Str → Option μ)
    (msgCb : μ → Except String Unit) (k : Nat) :
    ∀ fuel s segs, Transport.sendLoopFuel k fuel s = some segs →
    ∀ rest buf delivered pongs,
    Transport.receiveLoopAux decode msgCb (segs.map segFrame ++ rest) buf delivered pongs =
      match decode (buf.flatten ++ s) with
      | none => ⟨delivered.reverse, pongs.reverse, some "json decode error", true⟩
      | some m =>
        match msgCb m with
        | Except.error e => ⟨(m :: delivered).reverse, pongs.reverse, some e, true⟩
        | Except.ok _ => Transport.receiveLoopAux decode msgCb rest [] (m :: delivered) pongs := by
  intro fuel
  induction fuel with
  | zero => intro s segs hsegs; simp [Transport.sendLoopFuel] at hsegs
  | succ f ih =>
    intro s segs hsegs rest buf delivered pongs
    by_cases hrest : (s.drop k).isEmpty
    · have hdrop : s.drop k = [] := by simpa [List.isEmpty_iff] using hrest
      have hlen : s.length ≤ k := by
        have := List.drop_eq_nil_iff.mp hdrop
        omega
      have htake : s.take k = s := List.take_of_length_le hlen
      have hsegs' : segs = [('0', s)] := by
        simp [Transport.sendLoopFuel, hrest, htake] at hsegs
        exact hsegs.symm
      subst hsegs'
      simp [segFrame, Transport.receiveLoopAux]
    · rw [Transport.sendLoopFuel] at hsegs
      simp only [hrest] at hsegs
      simp only [Bool.false_eq_true, if_false, Option.map_eq_some'] at hsegs
      obtain ⟨segs', hsegs', rfl⟩ := hsegs
      have step := ih (s.drop k) segs' hsegs' rest (buf ++ [s.take k]) delivered pongs
      simp only [List.map_cons, segFrame, List.cons_append]
      rw [Transport.receiveLoopAux]
      simp only [reduceCtorEq, if_false, reduceIte]
      rw [step]
      simp [List.flatten_append]

/-- C1: for every message and every `max_segment_size k ≥ 1`, encoding the
message, segmenting it by the send loop (`1`-tagged non-final segments,
`0`-tagged final segment), reassembling by the receive loop (buffered
non-final payloads concatenated with the final payload) and decoding
delivers exactly the original message; and a `0`-tagged frame arriving with
an empty buffer decodes as a complete single-segment message. -/
theorem c1_segment_roundtrip {μ : Type} (encode : μ → Str) (decode : Str → Option μ)
    (hcodec : ∀ m, decode (encode m) = some m) (m : μ) (k : Nat) (hk : 1 ≤ k) :
    ∃ segs, Transport.sendLoop (encode m) k = some segs ∧
      Transport.receiveLoop decode msgCbOk (segs.map segFrame) =
        ⟨[m], [], none, true⟩ ∧
      Transport.receiveLoop decode msgCbOk [WsMsg.text ('0' :: encode m)] =
        ⟨[m], [], none, true⟩ := by
  obtain ⟨segs, hsegs, -⟩ :=
    Transport.sendLoopFuel_spec k hk ((encode m).length + 1) (encode m) (by omega)
  refine ⟨segs, hsegs, ?_, ?_⟩
  · have h := Transport.receiveLoop_reassemble decode msgCbOk k
      ((encode m).length + 1) (encode m) segs hsegs [] [] [] []
    unfold Transport.receiveLoop
    rw [← List.append_nil (segs.map segFrame), h]
    simp [hcodec, msgCbOk, Transport.receiveLoopAux]
  · simp [Transport.receiveLoop, Transport.receiveLoopAux, hcodec, msgCbOk]

/-- Witness for C1 at the unary codec, message `5`, `max_segment_size 2`. -/
theorem c1_segment_roundtrip_witness :
    ∃ segs, Transport.sendLoop (unaryEncode 5) 2 = some segs ∧
      Transport.receiveLoop unaryDecode msgCbOk (segs.map segFrame) =
        ⟨[5], [], none, true⟩ ∧
      Transport.receiveLoop unaryDecode msgCbOk [WsMsg.text ('0' :: unaryEncode 5)] =
        ⟨[5], [], none, true⟩ :=
  c1_segment_roundtrip unaryEncode unaryDecode
    (fun m => by simp [unaryEncode, unaryDecode]) 5 2 (by decide)

/-- C2: the send loop splits the encoded message into chunks of at most
`max_segment_size` characters whose concatenation is the message; a message
longer than `max_segment_size` yields at least 2 segments, one of size at
most `max_segment_size` exactly 1; and every chunk except the last carries
tag `1` while the last carries tag `0`. -/
theorem c2_segment_sizes (msgStr : Str) (k : Nat) (hk : 1 ≤ k) :
    ∃ segs, Transport.sendLoop msgStr k = some segs ∧
      (segs.map Prod.snd).flatten = msgStr ∧
      (∀ seg ∈ segs, seg.2.length ≤ k) ∧
      (k < msgStr.length → 2 ≤ segs.length) ∧
      (msgStr.length ≤ k → segs.length = 1) ∧
      ∃ n, segs.map Prod.fst = List.replicate n '1' ++ ['0'] := by
  obtain ⟨segs, hsegs, hflat, hbound, hone, htwo, htags⟩ :=
    Transport.sendLoopFuel_spec k hk (msgStr.length + 1) msgStr (by omega)
  exact ⟨segs, hsegs, hflat, hbound, htwo, hone, htags⟩

/-- Witness for C2 on the three-character string `abc` with
`max_segment_size 2`. -/
theorem c2_segment_sizes_witness :
    ∃ segs, Transport.sendLoop ['a', 'b', 'c'] 2 = some segs ∧
      (segs.map Prod.snd).flatten = ['a', 'b', 'c'] ∧
      (∀ seg ∈ segs, seg.2.length ≤ 2) ∧
      (2 < List.length ['a', 'b', 'c'] → 2 ≤ segs.length) ∧
      (List.length ['a', 'b', 'c'] ≤ 2 → segs.length = 1) ∧
      ∃ n, segs.map Prod.fst = List.replicate n '1' ++ ['0'] :=
  c2_segment_sizes ['a', 'b', 'c'] 2 (by decide)

/-- Closed form of one sync-loop iteration: the considered value is the last
queued change when `autoflush_delay != 0` and the first one otherwise, and
the emitted diff is computed exactly when it differs from `synced_data`. -/
lemma Connection.syncIteration_eq {α δ : Type} [DecidableEq α]
    (diff : α → α → δ) (isEmptyDiff : δ → Bool) (autoflushDelay : Option Rat)
    (inp : SyncInput α) :
    Connection.syncIteration diff isEmptyDiff autoflushDelay inp =
      (fun (data : α) (leftover : List α) =>
        if data = inp.synced then
          ⟨data, inp.synced, leftover, none, inp.flushArrived⟩
        else
          ⟨data, data, leftover,
            if isEmptyDiff (diff inp.synced data) then none
            else some (diff inp.synced data),
            inp.flushArrived⟩)
      (if autoflushDelay ≠ some 0 then inp.pending.getLastD inp.data
        else inp.pending.headD inp.data)
      (if autoflushDelay ≠ some 0 then [] else inp.pending.tail) := by
  rcases inp with ⟨fl, pending, data0, synced⟩
  unfold Connection.syncIteration
  by_cases hdelay : autoflushDelay = some 0
  · simp only [hdelay, ne_eq, not_true_eq_false, if_false, reduceIte]
    cases pending with
    | nil =>
      dsimp only [List.headD, List.tail]
      split <;> simp_all
    | cons d ds =>
      dsimp only [List.headD, List.tail]
      split <;> simp_all
  · simp only [ne_eq, hdelay, not_false_eq_true, if_true, reduceIte]
    cases pending with
    | nil =>
      dsimp only [List.getLastD, List.isEmpty]
      split <;> simp_all
    | cons d ds =>
      cases ds with
      | nil =>
        dsimp only [List.getLastD, List.isEmpty]
        split <;> simp_all
      | cons e es =>
        simp only [List.isEmpty_cons, Bool.false_eq_true, if_false,
          List.getLastD_cons]
        split <;> simp_all

/-- C3: in each sync loop iteration, when `autoflush_delay != 0` the change
queue is drained and only its latest value is considered, when
`autoflush_delay == 0` exactly the one change held by the completed data
future is consumed; a diff is reported only when the considered value
differs from `synced_data`, the reported diff is `json.diff(synced, data)`,
and no `state` message is sent when that diff is empty. -/
theorem c3_sync_coalescing {α δ : Type} [DecidableEq α]
    (diff : α → α → δ) (isEmptyDiff : δ → Bool) (autoflushDelay : Option Rat)
    (inp : SyncInput α) (out : SyncOutput α δ)
    (hout : Connection.syncIteration diff isEmptyDiff autoflushDelay inp = out) :
    (autoflushDelay ≠ some 0 →
      out.leftover = [] ∧ out.data = inp.pending.getLastD inp.data) ∧
    (autoflushDelay = some 0 →
      out.leftover = inp.pending.tail ∧ out.data = inp.pending.headD inp.data) ∧
    (∀ d, out.sent = some d →
      out.data ≠ inp.synced ∧ d = diff inp.synced out.data ∧ isEmptyDiff d = false) ∧
    (out.data = inp.synced → out.sent = none) := by
  subst hout
  rw [Connection.syncIteration_eq]
  dsimp only
  by_cases hdelay : autoflushDelay = some 0 <;>
    simp only [hdelay, ne_eq, not_true_eq_false, not_false_eq_true, if_true,
      if_false, reduceIte] <;>
    split <;>
    simp_all

/-- Witness for C3 at a non-zero `autoflush_delay`, two pending changes. -/
theorem c3_sync_coalescing_witness :
    ((some (1 : Rat) ≠ some 0 →
      (SyncOutput.leftover (α := Nat) ⟨2, 2, [], some [2], true⟩) = [] ∧
      (SyncOutput.data (α := Nat) (δ := List Nat) ⟨2, 2, [], some [2], true⟩) =
        List.getLastD [1, 2] 0) ∧
    (some (1 : Rat) = some 0 →
      (SyncOutput.leftover (α := Nat) ⟨2, 2, [], some [2], true⟩) = List.tail [1, 2] ∧
      (SyncOutput.data (α := Nat) (δ := List Nat) ⟨2, 2, [], some [2], true⟩) =
        List.headD [1, 2] 0) ∧
    (∀ d, (SyncOutput.sent (α := Nat) ⟨2, 2, [], some [2], true⟩) = some d →
      (SyncOutput.data (α := Nat) (δ := List Nat) ⟨2, 2, [], some [2], true⟩) ≠ 0 ∧
      d = natDiff 0 (SyncOutput.data (α := Nat) (δ := List Nat) ⟨2, 2, [], some [2], true⟩) ∧
      natDiffIsEmpty d = false) ∧
    ((SyncOutput.data (α := Nat) (δ := List Nat) ⟨2, 2, [], some [2], true⟩) = 0 →
      (SyncOutput.sent (α := Nat) ⟨2, 2, [], some [2], true⟩) = none)) :=
  c3_sync_coalescing natDiff natDiffIsEmpty (some 1)
    ⟨true, [1, 2], 0, 0⟩ ⟨2, 2, [], some [2], true⟩ (by decide)

/-- Counterexample to C4 as stated: with a non-zero `autoflush_delay`
(here 1) and a flush arriving between coalescing windows — no change
notification pending (`pending = []`) and the current data already synced —
the sync loop resolves the flush waiter in that very iteration
(`flushResolved = true`), without waiting for any next state change and
without sending anything. -/
theorem c4_flush_counterexample :
    (Connection.syncIteration natDiff natDiffIsEmpty (some 1)
      ⟨true, [], 0, 0⟩).flushResolved = true ∧
    (Connection.syncIteration natDiff natDiffIsEmpty (some 1)
      ⟨true, [], 0, 0⟩).sent = none := by
  constructor <;> rfl

/-- C4 (amended): when a flush request reaches the sync loop with no change
notification pending and the data already synced, the iteration resolves
the flush waiter immediately using only the already-synced data, emitting
no `state` message and leaving `synced_data` unchanged — it does not wait
for the next state change. -/
theorem c4_flush_between_windows {α δ : Type} [DecidableEq α]
    (diff : α → α → δ) (isEmptyDiff : δ → Bool) (autoflushDelay : Option Rat)
    (inp : SyncInput α) (hflush : inp.flushArrived = true)
    (hpending : inp.pending = []) (hidle : inp.data = inp.synced) :
    (Connection.syncIteration diff isEmptyDiff autoflushDelay inp).flushResolved = true ∧
    (Connection.syncIteration diff isEmptyDiff autoflushDelay inp).sent = none ∧
    (Connection.syncIteration diff isEmptyDiff autoflushDelay inp).synced = inp.synced := by
  rw [Connection.syncIteration_eq]
  dsimp only
  rw [hpending]
  simp [hflush, hidle]

/-- Witness for C4 (amended) at a concrete idle iteration. -/
theorem c4_flush_between_windows_witness :
    (Connection.syncIteration natDiff natDiffIsEmpty (some 1)
      ⟨true, [], 7, 7⟩).flushResolved = true ∧
    (Connection.syncIteration natDiff natDiffIsEmpty (some 1)
      ⟨true, [], 7, 7⟩).sent = none ∧
    (Connection.syncIteration natDiff natDiffIsEmpty (some 1)
      ⟨true, [], 7, 7⟩).synced = SyncInput.synced (α := Nat) ⟨true, [], 7, 7⟩ :=
  c4_flush_between_windows natDiff natDiffIsEmpty (some 1)
    ⟨true, [], 7, 7⟩ rfl rfl rfl

/-- Appending a fresh id at the end of the correlation table makes it
visible to lookup. -/
lemma tableGet_append_fresh (t : List (Nat × FutureState)) (id : Nat)
    (f : FutureState) (h : tableGet t id = none) :
    tableGet (t ++ [(id, f)]) id = some f := by
  induction t with
  | nil => simp [tableGet]
  | cons e rest ih =>
    rcases e with ⟨i, g⟩
    by_cases hi : i = id
    · simp [tableGet, hi] at h
    · simp only [tableGet, hi, if_false, List.cons_append, reduceIte] at h ⊢
      exact ih h

/-- Popping a freshly appended id restores the original table. -/
lemma tableRemove_append_fresh (t : List (Nat × FutureState)) (id : Nat)
    (f : FutureState) (h : tableGet t id = none) :
    tableRemove (t ++ [(id, f)]) id = t := by
  induction t with
  | nil => simp [tableRemove]
  | cons e rest ih =>
    rcases e with ⟨i, g⟩
    by_cases hi : i = id
    · simp [tableGet, hi] at h
    · simp only [tableGet, hi, if_false, List.cons_append, tableRemove, reduceIte] at h ⊢
      exact congrArg (List.cons (i, g)) (ih h)

/-- Lookup through the `_on_close` sweep: a done future is kept, a pending
one is failed with `ConnectionError`. -/
lemma tableGet_onClose (t : List (Nat × FutureState)) (id : Nat) :
    tableGet (t.map (fun e =>
        if e.2.done then e else (e.1, FutureState.failedDisconnected))) id =
      (tableGet t id).map
        (fun f => if f.done then f else FutureState.failedDisconnected) := by
  induction t with
  | nil => rfl
  | cons e rest ih =>
    rcases e with ⟨i, g⟩
    by_cases hi : i = id
    · subst hi
      cases g <;> simp [tableGet, FutureState.done]
    · cases g <;>
        simp only [List.map_cons, FutureState.done, reduceIte, Bool.false_eq_true,
          if_false, if_true, tableGet, hi] <;>
        exact ih

/-- C5: request ids are drawn from a counter starting at 1 (the client state
after `connect` has `nextReqId = 1`); a successful `Client.send` draws the
counter value as id, increments the counter, and the state handed to the
transport together with the request message already holds the pending
placeholder under that id; the `finally` clause pops the id after the
result is delivered or the send fails; and `_on_close` fails every
still-pending placeholder with `ConnectionError` while keeping done ones. -/
theorem c5_request_ids (st st' : ClientState) (name : String) (data : JsonData)
    (reqId : Nat) (msg : Msg)
    (hsend : Client.sendStart st name data = Except.ok (st', reqId, msg))
    (hfresh : tableGet st.resFutures st.nextReqId = none) :
    Client.connectState.nextReqId = 1 ∧
    reqId = st.nextReqId ∧
    st'.nextReqId = st.nextReqId + 1 ∧
    msg = Msg.request reqId name data ∧
    tableGet st'.resFutures reqId = some FutureState.pending ∧
    tableGet (Client.sendFinish st' reqId).resFutures reqId = none ∧
    (∀ id f, tableGet st'.resFutures id = some f →
      tableGet (Client.onClose st').resFutures id =
        some (if f.done then f else FutureState.failedDisconnected)) := by
  unfold Client.sendStart at hsend
  split at hsend
  · cases hsend
  · simp only [Except.ok.injEq, Prod.mk.injEq] at hsend
    obtain ⟨hst, hid, hmsg⟩ := hsend
    subst hst
    subst hid
    subst hmsg
    refine ⟨rfl, rfl, rfl, rfl, ?_, ?_, ?_⟩
    · exact tableGet_append_fresh _ _ _ hfresh
    · show tableGet (tableRemove _ _) _ = none
      rw [tableRemove_append_fresh _ _ _ hfresh]
      exact hfresh
    · intro id f hf
      show tableGet (List.map _ _) id = _
      rw [tableGet_onClose, hf]
      rfl

/-- Witness for C5: the first `send` on a fresh client draws id 1. -/
theorem c5_request_ids_witness :
    Client.connectState.nextReqId = 1 ∧
    1 = Client.connectState.nextReqId ∧
    (ClientState.nextReqId ⟨true, 2, [(1, FutureState.pending)], JsonData.null⟩) =
      Client.connectState.nextReqId + 1 ∧
    Msg.request 1 "ping" JsonData.null = Msg.request 1 "ping" JsonData.null ∧
    tableGet (ClientState.resFutures ⟨true, 2, [(1, FutureState.pending)], JsonData.null⟩) 1 =
      some FutureState.pending ∧
    tableGet (Client.sendFinish ⟨true, 2, [(1, FutureState.pending)], JsonData.null⟩ 1).resFutures 1 =
      none ∧
    (∀ id f,
      tableGet (ClientState.resFutures ⟨true, 2, [(1, FutureState.pending)], JsonData.null⟩) id =
        some f →
      tableGet (Client.onClose ⟨true, 2, [(1, FutureState.pending)], JsonData.null⟩).resFutures id =
        some (if f.done then f else FutureState.failedDisconnected)) :=
  c5_request_ids Client.connectState
    ⟨true, 2, [(1, FutureState.pending)], JsonData.null⟩
    "ping" JsonData.null 1 (Msg.request 1 "ping" JsonData.null) rfl rfl

/-- C6: an inbound response with a pending placeholder for its id resolves
it with the message data when `success` is true and fails it with
`JugglerError` (the spec's `RemoteError`) carrying the message data when
`success` is false; when no placeholder exists for the id, or the
placeholder is already done, the response is dropped and the client state
is unchanged. -/
theorem c6_response_handling (patch : JsonData → JsonData → JsonData)
    (notifyCb : Option (String → JsonData → Except String Unit))
    (st : ClientState) (id : Nat) (success : Bool) (data : JsonData) :
    Client.onMsg patch notifyCb st (Msg.response id success data) =
      Except.ok (match tableGet st.resFutures id with
        | some FutureState.pending =>
            { st with resFutures := tableSet st.resFutures id (if success then FutureState.resolved data else FutureState.failedJuggler data) }
        | _ => st) := by
  unfold Client.onMsg
  cases hf : tableGet st.resFutures id with
  | none => simp [hf]
  | some f =>
      cases f <;> cases success <;>
        simp [hf, FutureState.done]

/-- C7: for an inbound request with non-empty name, a handler return value
`v` yields `{success: true, data: v}`, a handler exception `e` yields
`{success: false, data: str(e)}`, and a missing handler yields
`{success: false, data: "request handler not implemented"}`. -/
theorem c7_request_result_mapping (requestCb : RequestCb) (id : Nat)
    (name : String) (data : JsonData) (hname : name ≠ "") :
    Connection.processRequest requestCb id name data =
      match requestCb with
      | none => ⟨id, false, JsonData.str "request handler not implemented"⟩
      | some cb =>
        match cb name data with
        | Except.ok v => ⟨id, true, v⟩
        | Except.error e => ⟨id, false, JsonData.str e⟩ := by
  unfold Connection.processRequest Connection.callRequestCb
  cases requestCb with
  | none => simp [hname]
  | some cb =>
      cases hcb : cb name data <;> simp [hname, hcb]

/-- Witness for C7 on a raising handler: a request named `boom` whose
handler raises `Exception("error")` is answered with
`{success: false, data: "error"}`. -/
theorem c7_request_result_mapping_witness :
    Connection.processRequest
        (some (fun _ _ => Except.error "error")) 4 "boom" JsonData.null =
      match some (fun (_ : String) (_ : JsonData) => Except.error (ε := String) "error") with
      | none => ⟨4, false, JsonData.str "request handler not implemented"⟩
      | some cb =>
        match cb "boom" JsonData.null with
        | Except.ok v => ⟨4, true, v⟩
        | Except.error e => ⟨4, false, JsonData.str e⟩ :=
  c7_request_result_mapping (some (fun _ _ => Except.error "error")) 4 "boom"
    JsonData.null (by decide)

/-- C8: a request with empty name is echoed — same id, `success: true`,
`data` equal to the request data — and the handler is never consulted: the
response is the same for every registered handler and for none at all. -/
theorem c8_empty_name_echo (requestCb requestCb2 : RequestCb) (id : Nat)
    (data : JsonData) :
    Connection.processRequest requestCb id "" data = ⟨id, true, data⟩ ∧
    Connection.processRequest requestCb id "" data =
      Connection.processRequest requestCb2 id "" data := by
  constructor <;> rfl

/-- Closed form of the sync-loop `finally` block: every waiter it touches —
the currently held one and everything drained from the flush queue — is
passed through `failPending`. -/
lemma Connection.syncLoopFinale_eq (cur : Option FutureState)
    (queue : List FutureState) :
    Connection.syncLoopFinale cur queue = (cur.toList ++ queue).map failPending := by
  induction queue generalizing cur with
  | nil => cases cur <;> rfl
  | cons g rest ih =>
      cases cur <;> simp [Connection.syncLoopFinale, ih]

/-- C9: once closed, every operation fails with `ConnectionError`
(`Disconnected`): `Client.send` checks the open flag before registering
anything, `Connection.notify` checks the open flag, `Transport.send` fails
on the closed send queue, `Connection.flush` fails on the closed flush
queue, and the sync loop termination turns every still-pending flush waiter
into a `ConnectionError` failure while keeping done waiters unchanged. -/
theorem c9_closed_operations (st : ClientState) (hclosed : st.isOpen = false)
    (name : String) (data : JsonData) (msg : Msg) (sendQueueClosed : Bool)
    (cur : Option FutureState) (queue : List FutureState) :
    Client.sendStart st name data = Except.error ConnectionFailure.disconnected ∧
    Connection.notify false sendQueueClosed name data =
      Except.error ConnectionFailure.disconnected ∧
    Transport.send true msg = Except.error ConnectionFailure.disconnected ∧
    Connection.flush true = Except.error ConnectionFailure.disconnected ∧
    Connection.syncLoopFinale cur queue = (cur.toList ++ queue).map failPending ∧
    failPending FutureState.pending = FutureState.failedDisconnected ∧
    (∀ f : FutureState, f.done = true → failPending f = f) := by
  refine ⟨?_, rfl, rfl, rfl, Connection.syncLoopFinale_eq cur queue, rfl, ?_⟩
  · unfold Client.sendStart
    simp [hclosed]
  · intro f hf
    cases f <;> simp [FutureState.done] at hf ⊢ <;> rfl

/-- Witness for C9 on a closed client and one pending plus one resolved
flush waiter. -/
theorem c9_closed_operations_witness :
    Client.sendStart ⟨false, 3, [], JsonData.null⟩ "n" JsonData.null =
      Except.error ConnectionFailure.disconnected ∧
    Connection.notify false true "n" JsonData.null =
      Except.error ConnectionFailure.disconnected ∧
    Transport.send true (Msg.notify "n" JsonData.null) =
      Except.error ConnectionFailure.disconnected ∧
    Connection.flush true = Except.error ConnectionFailure.disconnected ∧
    Connection.syncLoopFinale (some FutureState.pending)
        [FutureState.resolved JsonData.null] =
      ((some FutureState.pending).toList ++ [FutureState.resolved JsonData.null]).map
        failPending ∧
    failPending FutureState.pending = FutureState.failedDisconnected ∧
    (∀ f : FutureState, f.done = true → failPending f = f) :=
  c9_closed_operations ⟨false, 3, [], JsonData.null⟩ rfl "n" JsonData.null
    (Msg.notify "n" JsonData.null) true (some FutureState.pending)
    [FutureState.resolved JsonData.null]

/-- C10: any inbound message on a server connection whose type is not
`request` — notifications, state messages, responses and unknown types
alike — makes the connection's message callback raise "invalid message
type"; the receive loop then terminates with that error and its `finally`
block closes the transport, so the server never processes such a message
into a response. -/
theorem c10_non_request_rejected (requestCb : RequestCb) (msg : Msg)
    (hmsg : msg.isRequest = false) (decode : Str → Option Msg) (payload : Str)
    (hdecode : decode payload = some msg) :
    Connection.onMsg requestCb msg = Except.error "invalid message type" ∧
    Transport.receiveLoop decode (Connection.msgCb requestCb)
        [WsMsg.text ('0' :: payload)] =
      ⟨[msg], [], some "invalid message type", true⟩ := by
  have herr : Connection.onMsg requestCb msg = Except.error "invalid message type" := by
    cases msg <;> first
      | rfl
      | (simp [Msg.isRequest] at hmsg)
  refine ⟨herr, ?_⟩
  unfold Transport.receiveLoop Transport.receiveLoopAux
  simp [hdecode, Connection.msgCb, herr, Except.map]

/-- Witness for C10 on an inbound notify message. -/
theorem c10_non_request_rejected_witness :
    Connection.onMsg none (Msg.notify "x" JsonData.null) =
      Except.error "invalid message type" ∧
    Transport.receiveLoop (fun _ => some (Msg.notify "x" JsonData.null))
        (Connection.msgCb none) [WsMsg.text ('0' :: [])] =
      ⟨[Msg.notify "x" JsonData.null], [], some "invalid message type", true⟩ :=
  c10_non_request_rejected none (Msg.notify "x" JsonData.null) rfl
    (fun _ => some (Msg.notify "x" JsonData.null)) [] rfl

end Juggler
